import Mathlib

/-!
Shallow embedding of the feedbackx repository core: the feedback-collection
creation service (`src/feedback/services/create-feedback.service.ts`, duplicated
as `src/realm/services/create-realm.service.ts`), the admin auth guard
(`src/common/guards/admin-auth.guard.ts`), and the error-normalization layer
(`src/common/exceptions/http-exception-format.helper.ts`,
`src/common/exceptions/validation-format.helper.ts`, `CommonErrorInterceptor`).
TypeScript strings are modelled as Lean `String`/`List Char`, JS objects of
unknown shape as an inductive `JsValue`, random bytes as an explicitly passed
`List Nat`, and the TypeORM repository as a list of rows plus a query log.
-/

namespace Feedbackx

/-- ScaleType / Scale model: the tagged-union scale configuration
(`{type:"numeric",min,max}` or `{type:"enum",values}`). -/
inductive ScaleConfig where
  | numeric (min max : Int)
  | enum (values : List String)
deriving DecidableEq, Repr

/-- CreateFeedbackModel: the plain domain record handed to the creation
service (`name`, `key`, optional `description`, `scale`, optional metadata;
metadata is free-form JSON, kept abstract as a `String` blob here since the
service never inspects it). -/
structure CreateFeedbackModel where
  name : String
  key : String
  description : Option String
  scale : ScaleConfig
  metadata : Option String
deriving DecidableEq, Repr

/-- FeedbackEntity as far as the creation service observes it: the input
fields plus the generated `apiKey` (store-generated `id` and timestamps are
outside the service's computation). -/
structure FeedbackRow where
  name : String
  key : String
  description : Option String
  scale : ScaleConfig
  metadata : Option String
  apiKey : String
deriving DecidableEq, Repr

/-- One query issued against the backing store by the repository. -/
inductive Query where
  | read
  | write
deriving DecidableEq, Repr

/-- The TypeORM repository state: the stored rows plus a log of the queries
issued so far. -/
structure RepoState where
  rows : List FeedbackRow
  queries : List Query
deriving DecidableEq, Repr

/-- Repository `findOne({ where: [{ name }, { key }] })`: one read query
returning the first stored row whose `name` equals the given name OR whose
`key` equals the given key. -/
def findOne (name key : String) (s : RepoState) : Option FeedbackRow × RepoState :=
  (s.rows.find? (fun r => r.name == name || r.key == key),
   { s with queries := s.queries ++ [Query.read] })

/-- Repository `save(row)`: one write query appending the row and returning
the persisted row. -/
def save (row : FeedbackRow) (s : RepoState) : FeedbackRow × RepoState :=
  (row, { rows := s.rows ++ [row], queries := s.queries ++ [Query.write] })

/-- Lowercase hex digit of a nibble, as produced by Node's
`Buffer.toString('hex')`: 0-9 then a-f. -/
def toHexChar (n : Nat) : Char :=
  if n < 10 then Char.ofNat (48 + n) else Char.ofNat (87 + n)

/-- Lowercase hex encoding of a byte list, two digits per byte
(`Buffer.toString('hex')`). -/
def bytesToHex : List Nat → List Char
  | [] => []
  | b :: bs => toHexChar (b / 16) :: toHexChar (b % 16) :: bytesToHex bs

/-- CreateFeedbackService.generateApiKey, with the output of
`randomBytes(32)` passed in explicitly: returns
`"fx_" + bytes.toString('hex')`. -/
def generateApiKey (bytes : List Nat) : String :=
  "fx_" ++ String.mk (bytesToHex bytes)

/-- Field-keyed error map of a `ValidationException` thrown by the creation
service: an association list from field name to message. -/
def UniqueErrors := List (String × String)

/-- CreateFeedbackService.assertNameAndKeyUnique: one `findOne` with an OR
condition; if a row matched, an error map is built containing a `name` entry
exactly when the matched row's name equals the input name and a `key` entry
exactly when its key equals the input key, and the map is thrown as a
`ValidationException`. -/
def assertNameAndKeyUnique (name key : String) (s : RepoState) :
    Except (List (String × String)) Unit × RepoState :=
  match findOne name key s with
  | (some existing, s1) =>
    (Except.error
      ((if existing.name = name then
          [("name", "Feedback collection name \"" ++ name ++ "\" already taken")]
        else []) ++
       (if existing.key = key then
          [("key", "Feedback collection key \"" ++ key ++ "\" already taken")]
        else [])),
     s1)
  | (none, s1) => (Except.ok (), s1)

/-- The row persisted on success: the input fields plus the generated
`apiKey` (spread `{ ...model, apiKey }`). -/
def rowOfModel (m : CreateFeedbackModel) (apiKey : String) : FeedbackRow :=
  { name := m.name, key := m.key, description := m.description,
    scale := m.scale, metadata := m.metadata, apiKey := apiKey }

/-- CreateFeedbackService.create: assert name/key uniqueness, generate the
API key, save `{ ...model, apiKey }`. The `ValidationException` propagates as
`Except.error` without touching the store further. -/
def create (m : CreateFeedbackModel) (bytes : List Nat) (s : RepoState) :
    Except (List (String × String)) FeedbackRow × RepoState :=
  match assertNameAndKeyUnique m.name m.key s with
  | (Except.error e, s1) => (Except.error e, s1)
  | (Except.ok _, s1) =>
    let apiKey := generateApiKey bytes
    let (saved, s2) := save (rowOfModel m apiKey) s1
    (Except.ok saved, s2)

/-- Lowercase-hex-digit character class `[a-f0-9]`. -/
def isLowerHexDigit (c : Char) : Bool :=
  (48 ≤ c.toNat && c.toNat ≤ 57) || (97 ≤ c.toNat && c.toNat ≤ 102)

/-- The regex `/^fx_[a-f0-9]{64}$/`: the string is `fx_` followed by exactly
64 lowercase hex digits. -/
def matchesApiKeyPattern (s : String) : Bool :=
  match s.data with
  | 'f' :: 'x' :: '_' :: rest => rest.length == 64 && rest.all isLowerHexDigit
  | _ => false

/-! Admin auth guard (`AdminAuthGuard` in `src/common/guards/admin-auth.guard.ts`).
The guard reads the configured admin secret, extracts the `Authorization`
header, matches it against the JS regex `/^Bearer\s+(.+)$/i`, trims the
captured token and compares it to the secret in constant time. The regex and
`String.prototype.trim` semantics are embedded over `List Char`. -/

/-- Characters matched by `\s` in a JS regex, which is the same set that
`String.prototype.trim` strips: tab, LF, VT, FF, CR, space, NBSP, Ogham space
mark, the U+2000-U+200A range, LS, PS, NNBSP, MMSP, ideographic space, BOM. -/
def jsWhitespaceCodes : List Nat :=
  [9, 10, 11, 12, 13, 32, 0xa0, 0x1680,
   0x2000, 0x2001, 0x2002, 0x2003, 0x2004, 0x2005, 0x2006, 0x2007,
   0x2008, 0x2009, 0x200a, 0x2028, 0x2029, 0x202f, 0x205f, 0x3000, 0xfeff]

/-- Whether a character is JS regex/trim whitespace. -/
def isJsWhitespaceChar (c : Char) : Bool :=
  jsWhitespaceCodes.contains c.toNat

/-- JS line terminators, the characters `.` does not match in a regex without
the dotAll flag: LF, CR, LS, PS. -/
def isLineTerminatorChar (c : Char) : Bool :=
  c.toNat == 10 || c.toNat == 13 || c.toNat == 0x2028 || c.toNat == 0x2029

/-- JS `String.prototype.trim`: strip leading and trailing whitespace. -/
def jsTrim (cs : List Char) : List Char :=
  ((cs.dropWhile isJsWhitespaceChar).reverse.dropWhile isJsWhitespaceChar).reverse

/-- Matching of `\s+(.+)$` against the part of the header after the scheme
word, under JS backtracking semantics: `\s+` greedily takes the maximal
whitespace run and gives characters back only when `(.+)$` would otherwise
fail. When stripping the maximal whitespace run leaves a nonempty remainder,
the match succeeds iff that remainder is free of line terminators and it is
the captured group; when the remainder is empty (the tail is all whitespace),
`\s+` gives back exactly one character, so the match succeeds iff the tail has
at least two characters and its last character is not a line terminator, and
the group is that single last character. -/
def matchBearerTail (rest : List Char) : Option (List Char) :=
  let w := rest.takeWhile isJsWhitespaceChar
  let t := rest.dropWhile isJsWhitespaceChar
  if w.isEmpty then none
  else if t.isEmpty then
    match rest.getLast? with
    | none => none
    | some c => if 2 ≤ rest.length && !(isLineTerminatorChar c) then some [c] else none
  else if t.any isLineTerminatorChar then none else some t

/-- Matching of the full JS regex `/^Bearer\s+(.+)$/i` against a header,
returning the captured group. Without the unicode flag, `/i` matches a
character against `B` exactly when its canonical uppercase form is `B`, i.e.
the character is `B` or `b` (similarly for the other letters), which coincides
with ASCII `Char.toLower`. -/
def matchBearerHeader (h : List Char) : Option (List Char) :=
  match h with
  | c1 :: c2 :: c3 :: c4 :: c5 :: c6 :: rest =>
    if c1.toLower = 'b' && c2.toLower = 'e' && c3.toLower = 'a' &&
       c4.toLower = 'r' && c5.toLower = 'e' && c6.toLower = 'r' then
      matchBearerTail rest
    else none
  | _ => none

/-- AdminAuthGuard.constantTimeCompare: return false if the lengths differ,
else accumulate `result |= a.charCodeAt(i) ^ b.charCodeAt(i)` over every
position and succeed only if the accumulated value is zero. -/
def constantTimeCompare (a b : String) : Bool :=
  if a.length ≠ b.length then false
  else (a.data.zip b.data).foldl (fun r p => r ||| (p.1.toNat ^^^ p.2.toNat)) 0 == 0

/-- Outcome of AdminAuthGuard.canActivate: `authorized` models returning
`true`; the other constructors model the four distinct
`UnauthorizedException` paths (secret unconfigured, missing header, bad
Bearer format, wrong token). -/
inductive GuardOutcome where
  | authorized
  | unauthorizedNotConfigured
  | unauthorizedMissingHeader
  | unauthorizedBadFormat
  | unauthorizedBadToken
deriving DecidableEq, Repr

/-- AdminAuthGuard.canActivate with the configured secret and the
`authorization` header passed explicitly. `adminSecret = none` models a
missing `ADMIN_SECRET`; the JS truthiness test `!adminSecret` additionally
sends the empty string to the not-configured path. The regex capture is
nonempty by construction, so the source's `!bearerMatch[1]` truthiness check
is kept as an explicit emptiness test. -/
def canActivate (adminSecret : Option String) (authHeader : Option String) : GuardOutcome :=
  match adminSecret with
  | none => GuardOutcome.unauthorizedNotConfigured
  | some secret =>
    if secret = "" then GuardOutcome.unauthorizedNotConfigured
    else
      match authHeader with
      | none => GuardOutcome.unauthorizedMissingHeader
      | some h =>
        match matchBearerHeader h.data with
        | none => GuardOutcome.unauthorizedBadFormat
        | some tok =>
          if tok.isEmpty then GuardOutcome.unauthorizedBadFormat
          else
            let providedToken := String.mk (jsTrim tok)
            if constantTimeCompare providedToken secret then GuardOutcome.authorized
            else GuardOutcome.unauthorizedBadToken

/-! Error normalizer: `normalizeHttpExceptionResponse`
(`src/common/exceptions/http-exception-format.helper.ts`),
`formatValidationIssues` (`src/common/exceptions/validation-format.helper.ts`)
and `CommonErrorInterceptor` (`src/common/interceptors`). JS runtime values of
unknown shape are embedded as `JsValue`. -/

/-- A JS runtime value as far as the error-handling code inspects one:
strings, numbers (statuses and message arrays only carry integral values
here), booleans, null, undefined, arrays, and plain objects as association
lists of own properties. -/
inductive JsValue where
  | str (s : String)
  | num (n : Nat)
  | bool (b : Bool)
  | null
  | undefined
  | arr (xs : List JsValue)
  | obj (fields : List (String × JsValue))
deriving Repr

/-- JS property lookup `o[k]` on a plain object, as the first binding of the
key in the association list. -/
def lookupField (fields : List (String × JsValue)) (k : String) : Option JsValue :=
  (fields.find? (fun p => p.1 == k)).map (fun p => p.2)

/-- String an element contributes to `Array.prototype.join`: strings as-is,
numbers via toString, booleans as true/false, null and undefined as the empty
string, nested arrays joined with a comma, plain objects as
"[object Object]". -/
def jsJoinPiece : JsValue → String
  | JsValue.str s => s
  | JsValue.num n => toString n
  | JsValue.bool b => if b then "true" else "false"
  | JsValue.null => ""
  | JsValue.undefined => ""
  | JsValue.arr xs => String.intercalate "," (xs.attach.map (fun x => jsJoinPiece x.1))
  | JsValue.obj _ => "[object Object]"
decreasing_by
  have h := List.sizeOf_lt_of_mem x.2
  simp only [JsValue.arr.sizeOf_spec]
  omega

/-- JS `array.join(sep)`. -/
def jsJoin (sep : String) (xs : List JsValue) : String :=
  String.intercalate sep (xs.map jsJoinPiece)

/-- Reverse mapping of the numeric `HttpStatus` enum of `@nestjs/common`
(library code outside this repository, modelled from the library): status
code to enum member name. -/
def httpStatusName : Nat → Option String
  | 100 => some "CONTINUE"
  | 101 => some "SWITCHING_PROTOCOLS"
  | 102 => some "PROCESSING"
  | 103 => some "EARLYHINTS"
  | 200 => some "OK"
  | 201 => some "CREATED"
  | 202 => some "ACCEPTED"
  | 203 => some "NON_AUTHORITATIVE_INFORMATION"
  | 204 => some "NO_CONTENT"
  | 205 => some "RESET_CONTENT"
  | 206 => some "PARTIAL_CONTENT"
  | 300 => some "AMBIGUOUS"
  | 301 => some "MOVED_PERMANENTLY"
  | 302 => some "FOUND"
  | 303 => some "SEE_OTHER"
  | 304 => some "NOT_MODIFIED"
  | 307 => some "TEMPORARY_REDIRECT"
  | 308 => some "PERMANENT_REDIRECT"
  | 400 => some "BAD_REQUEST"
  | 401 => some "UNAUTHORIZED"
  | 402 => some "PAYMENT_REQUIRED"
  | 403 => some "FORBIDDEN"
  | 404 => some "NOT_FOUND"
  | 405 => some "METHOD_NOT_ALLOWED"
  | 406 => some "NOT_ACCEPTABLE"
  | 407 => some "PROXY_AUTHENTICATION_REQUIRED"
  | 408 => some "REQUEST_TIMEOUT"
  | 409 => some "CONFLICT"
  | 410 => some "GONE"
  | 411 => some "LENGTH_REQUIRED"
  | 412 => some "PRECONDITION_FAILED"
  | 413 => some "PAYLOAD_TOO_LARGE"
  | 414 => some "URI_TOO_LONG"
  | 415 => some "UNSUPPORTED_MEDIA_TYPE"
  | 416 => some "REQUESTED_RANGE_NOT_SATISFIABLE"
  | 417 => some "EXPECTATION_FAILED"
  | 418 => some "I_AM_A_TEAPOT"
  | 421 => some "MISDIRECTED"
  | 422 => some "UNPROCESSABLE_ENTITY"
  | 424 => some "FAILED_DEPENDENCY"
  | 428 => some "PRECONDITION_REQUIRED"
  | 429 => some "TOO_MANY_REQUESTS"
  | 500 => some "INTERNAL_SERVER_ERROR"
  | 501 => some "NOT_IMPLEMENTED"
  | 502 => some "BAD_GATEWAY"
  | 503 => some "SERVICE_UNAVAILABLE"
  | 504 => some "GATEWAY_TIMEOUT"
  | 505 => some "HTTP_VERSION_NOT_SUPPORTED"
  | _ => none

/-- The source's `HttpStatus[statusCode] || 'Error'`. -/
def httpStatusText (statusCode : Nat) : String :=
  (httpStatusName statusCode).getD "Error"

/-- Structural check of `normalizeHttpExceptionResponse`: the response is an
object with a string `error` property, a numeric `statusCode` property and no
`message` property. -/
def isNormalizedShape (response : JsValue) : Bool :=
  match response with
  | JsValue.obj fields =>
    (match lookupField fields "error" with
     | some (JsValue.str _) => true
     | _ => false) &&
    (match lookupField fields "statusCode" with
     | some (JsValue.num _) => true
     | _ => false) &&
    (lookupField fields "message").isNone
  | _ => false

/-- Message extraction of `normalizeHttpExceptionResponse` for a response
that is not already normalized: a bare string response is used as-is; for an
object, a string `message` is used as-is, an array `message` is joined with
", ", any other present `message` falls back to the status text, and with no
`message` a string `error` property is used, else the status text; any other
response value falls back to the status text. -/
def extractErrorMessage (statusText : String) (response : JsValue) : String :=
  match response with
  | JsValue.str s => s
  | JsValue.obj fields =>
    match lookupField fields "message" with
    | some (JsValue.str m) => m
    | some (JsValue.arr xs) => jsJoin ", " xs
    | some _ => statusText
    | none =>
      match lookupField fields "error" with
      | some (JsValue.str e) => e
      | _ => statusText
  | _ => statusText

/-- normalizeHttpExceptionResponse, taking the exception's `getStatus()` and
`getResponse()` values: an already-normalized response object is returned
as-is; otherwise an object with the extracted `error` string and the
preserved `statusCode` is built. -/
def normalizeHttpExceptionResponse (statusCode : Nat) (response : JsValue) : JsValue :=
  if isNormalizedShape response then response
  else
    JsValue.obj
      [("error", JsValue.str (extractErrorMessage (httpStatusText statusCode) response)),
       ("statusCode", JsValue.num statusCode)]

/-- Value of one field of a `ValidationException.errors` map: a single
message string or an array of message strings. -/
inductive ErrMsg where
  | one (s : String)
  | many (ss : List String)
deriving DecidableEq, Repr

/-- formatValidationIssues: every field's value becomes an array of strings —
a bare string is wrapped in a single-element array, an array passes through
unchanged. -/
def formatValidationIssues (errors : List (String × ErrMsg)) :
    List (String × List String) :=
  errors.map (fun p =>
    (p.1, match p.2 with
          | ErrMsg.one s => [s]
          | ErrMsg.many ss => ss))

/-- An issues map as the JS object the interceptor puts in the response
body. -/
def issuesToJs (issues : List (String × List String)) : JsValue :=
  JsValue.obj (issues.map (fun p => (p.1, JsValue.arr (p.2.map JsValue.str))))

/-- An error reaching `CommonErrorInterceptor.intercept`'s catch handler:
a domain `ValidationException` carrying its errors map, an `HttpException`
carrying its status and response value, or anything else (generic errors,
thrown primitives, null, undefined) carried as an opaque `JsValue`. -/
inductive ThrownError where
  | validationExc (errors : List (String × ErrMsg))
  | httpExc (status : Nat) (response : JsValue)
  | other (v : JsValue)

/-- An outgoing HTTP exception: status plus response body. -/
structure HttpErrorResponse where
  status : Nat
  response : JsValue
deriving Repr

/-- CommonErrorInterceptor.intercept on a caught error: a
`ValidationException` becomes a `BadRequestException` with
`issues`/`error`/`statusCode`; any other `HttpException` is re-thrown with
its response normalized and its status preserved; everything else becomes an
`InternalServerErrorException` with the fixed generic body (the original
error is only logged). -/
def intercept (err : ThrownError) : HttpErrorResponse :=
  match err with
  | ThrownError.validationExc errors =>
    { status := 400,
      response := JsValue.obj
        [("issues", issuesToJs (formatValidationIssues errors)),
         ("error", JsValue.str "Bad Request"),
         ("statusCode", JsValue.num 400)] }
  | ThrownError.httpExc status response =>
    { status := status,
      response := normalizeHttpExceptionResponse status response }
  | ThrownError.other _ =>
    { status := 500,
      response := JsValue.obj
        [("error", JsValue.str "Internal Server Error"),
         ("statusCode", JsValue.num 500)] }

/-! Helper lemmas. -/

/-- Every nibble below 16 encodes to a lowercase hex digit. -/
theorem toHexChar_lower_hex : ∀ n < 16, isLowerHexDigit (toHexChar n) = true := by decide

/-- Hex encoding doubles the length. -/
theorem bytesToHex_length (bs : List Nat) : (bytesToHex bs).length = 2 * bs.length := by
  induction bs with
  | nil => rfl
  | cons b bs ih => simp [bytesToHex, ih]; omega

/-- Hex encoding of genuine bytes yields only lowercase hex digits. -/
theorem bytesToHex_all_lower_hex (bs : List Nat) (h : ∀ b ∈ bs, b < 256) :
    (bytesToHex bs).all isLowerHexDigit = true := by
  induction bs with
  | nil => rfl
  | cons b bs ih =>
    have hb : b < 256 := h b (List.mem_cons_self b bs)
    have h1 : b / 16 < 16 := by omega
    have h2 : b % 16 < 16 := Nat.mod_lt _ (by norm_num)
    simp only [bytesToHex, List.all_cons, Bool.and_eq_true]
    exact ⟨toHexChar_lower_hex _ h1, toHexChar_lower_hex _ h2,
           by rw [ih (fun x hx => h x (List.mem_cons_of_mem b hx))]⟩

/-- Character-level view of a generated API key. -/
theorem generateApiKey_data (bs : List Nat) :
    (generateApiKey bs).data = 'f' :: 'x' :: '_' :: bytesToHex bs := rfl

/-- A bitwise or of naturals is zero exactly when both sides are. -/
theorem nat_or_eq_zero_iff (a b : Nat) : a ||| b = 0 ↔ a = 0 ∧ b = 0 := by
  constructor
  · intro h
    constructor <;>
    · apply Nat.eq_of_testBit_eq
      intro i
      have hb := congrArg (fun n => Nat.testBit n i) h
      simp [Nat.testBit_lor] at hb
      simp [hb.1, hb.2]
  · rintro ⟨rfl, rfl⟩; rfl

/-- Characters with equal code points are equal. -/
theorem char_eq_of_toNat_eq {c d : Char} (h : c.toNat = d.toNat) : c = d := by
  apply Char.ext
  apply UInt32.eq_of_toBitVec_eq
  exact BitVec.eq_of_toNat_eq h

/-- An or-accumulating fold is zero exactly when the seed and every
contribution are zero. -/
theorem foldl_or_eq_zero_iff {α : Type} (f : α → Nat) :
    ∀ (l : List α) (a : Nat),
      l.foldl (fun r x => r ||| f x) a = 0 ↔ a = 0 ∧ ∀ x ∈ l, f x = 0 := by
  intro l
  induction l with
  | nil => intro a; simp
  | cons x xs ih =>
    intro a
    rw [List.foldl_cons, ih, nat_or_eq_zero_iff]
    constructor
    · rintro ⟨⟨ha, hx⟩, hall⟩
      exact ⟨ha, fun y hy => by
        rcases List.mem_cons.mp hy with h | h
        · rw [h]; exact hx
        · exact hall y h⟩
    · rintro ⟨ha, hall⟩
      exact ⟨⟨ha, hall x (List.mem_cons_self x xs)⟩,
             fun y hy => hall y (List.mem_cons_of_mem x hy)⟩

/-- Equal-length lists whose zipped pairs agree componentwise are equal. -/
theorem zip_forall_eq :
    ∀ (l1 l2 : List Char), l1.length = l2.length →
      (∀ p ∈ l1.zip l2, p.1 = p.2) → l1 = l2 := by
  intro l1
  induction l1 with
  | nil => intro l2 hlen _; cases l2 <;> simp_all
  | cons c cs ih =>
    intro l2 hlen hall
    cases l2 with
    | nil => simp at hlen
    | cons d ds =>
      have hcd : c = d := hall (c, d) (by simp [List.zip_cons_cons])
      have : cs = ds := by
        apply ih ds (by simpa using hlen)
        intro p hp
        exact hall p (by simp [List.zip_cons_cons, hp])
      rw [hcd, this]

/-- Zipping a list with itself pairs each element with itself. -/
theorem zip_self_eq (l : List Char) : ∀ p ∈ l.zip l, p.1 = p.2 := by
  induction l with
  | nil => simp
  | cons c cs ih =>
    intro p hp
    rcases List.mem_cons.mp (by simpa [List.zip_cons_cons] using hp) with h | h
    · rw [h]
    · exact ih p h

/-- The constant-time comparison succeeds exactly on equal strings. -/
theorem constantTimeCompare_eq_true_iff (a b : String) :
    constantTimeCompare a b = true ↔ a = b := by
  unfold constantTimeCompare
  by_cases hlen : a.length = b.length
  · simp only [hlen, ne_eq, not_true_eq_false, if_false, beq_iff_eq]
    rw [foldl_or_eq_zero_iff]
    constructor
    · rintro ⟨-, hall⟩
      apply String.ext
      apply zip_forall_eq a.data b.data hlen
      intro p hp
      exact char_eq_of_toNat_eq (Nat.xor_eq_zero.mp (hall p hp))
    · intro heq
      subst heq
      refine ⟨rfl, fun p hp => ?_⟩
      rw [zip_self_eq a.data p hp]
      exact Nat.xor_self _
  · simp only [hlen, ne_eq, not_false_eq_true, if_true]
    constructor
    · intro h; exact absurd h (by simp)
    · intro heq; exact absurd (congrArg String.length heq) hlen

/-- The captured group of the Bearer regex is never empty. -/
theorem matchBearerTail_ne_nil {rest t : List Char}
    (h : matchBearerTail rest = some t) : t ≠ [] := by
  intro hnil
  subst hnil
  simp only [matchBearerTail] at h
  split at h
  · exact Option.noConfusion h
  · split at h
    · split at h
      · exact Option.noConfusion h
      · split at h
        · exact List.noConfusion (Option.some.inj h)
        · exact Option.noConfusion h
    · split at h
      · exact Option.noConfusion h
      · rename_i hW hT hA
        rw [Option.some.injEq] at h
        rw [h] at hT
        simp at hT

/-- The token captured from a header by the Bearer regex is never empty. -/
theorem matchBearerHeader_ne_nil {h tok : List Char}
    (hm : matchBearerHeader h = some tok) : tok ≠ [] := by
  unfold matchBearerHeader at hm
  split at hm
  · split at hm
    · exact matchBearerTail_ne_nil hm
    · simp at hm
  · simp at hm

/-- Joining string elements reduces to `String.intercalate`. -/
theorem jsJoinPiece_str (s : String) : jsJoinPiece (JsValue.str s) = s := by
  simp [jsJoinPiece]

/-- A JS join over an all-strings array is an intercalation. -/
theorem jsJoin_str_map (sep : String) (ss : List String) :
    jsJoin sep (ss.map JsValue.str) = String.intercalate sep ss := by
  unfold jsJoin
  congr 1
  rw [List.map_map]
  induction ss with
  | nil => rfl
  | cons x xs ih => simp [jsJoinPiece_str, ih]

/-! Claim theorems. -/

/-- C1: for every creation input whose name and key are absent from the
store, `create` succeeds with the input fields plus the generated key, and
the key generated from the 32 random bytes matches `/^fx_[a-f0-9]{64}$/`,
having total length 67. -/
theorem create_fresh_pair_returns_wellformed_apiKey
    (m : CreateFeedbackModel) (bytes : List Nat) (s : RepoState)
    (hfresh : ∀ r ∈ s.rows, r.name ≠ m.name ∧ r.key ≠ m.key)
    (hlen : bytes.length = 32) (hbytes : ∀ b ∈ bytes, b < 256) :
    (create m bytes s).1 = Except.ok (rowOfModel m (generateApiKey bytes)) ∧
    matchesApiKeyPattern (generateApiKey bytes) = true ∧
    (generateApiKey bytes).length = 67 := by
  have hfind : s.rows.find? (fun r => r.name == m.name || r.key == m.key) = none := by
    rw [List.find?_eq_none]
    intro r hr
    simp only [Bool.or_eq_true, beq_iff_eq, not_or]
    exact hfresh r hr
  refine ⟨?_, ?_, ?_⟩
  · simp [create, assertNameAndKeyUnique, findOne, hfind, save]
  · simp only [matchesApiKeyPattern, generateApiKey_data]
    simp [bytesToHex_length, hlen, bytesToHex_all_lower_hex bytes hbytes]
  · show (generateApiKey bytes).data.length = 67
    rw [generateApiKey_data]
    simp [bytesToHex_length, hlen]

/-- C1 witness: a concrete creation on an empty store with 32 concrete
bytes. -/
theorem create_fresh_pair_returns_wellformed_apiKey_witness :
    (create ⟨"Customer Satisfaction", "customer-satisfaction", none,
       ScaleConfig.numeric 0 10, none⟩ (List.replicate 32 171) ⟨[], []⟩).1 =
      Except.ok (rowOfModel ⟨"Customer Satisfaction", "customer-satisfaction", none,
        ScaleConfig.numeric 0 10, none⟩ (generateApiKey (List.replicate 32 171))) ∧
    matchesApiKeyPattern (generateApiKey (List.replicate 32 171)) = true ∧
    (generateApiKey (List.replicate 32 171)).length = 67 :=
  create_fresh_pair_returns_wellformed_apiKey
    ⟨"Customer Satisfaction", "customer-satisfaction", none,
      ScaleConfig.numeric 0 10, none⟩ (List.replicate 32 171) ⟨[], []⟩
    (by simp) (by decide) (by decide)

/-- C2: when the uniqueness lookup finds an existing row, `create` fails with
an error map containing a `name` entry exactly when the matched row's name
equals the input name, and a `key` entry exactly when the matched row's key
equals the input key. -/
theorem create_collision_reports_exactly_matching_fields
    (m : CreateFeedbackModel) (bytes : List Nat) (s : RepoState) (ex : FeedbackRow)
    (hfind : s.rows.find? (fun r => r.name == m.name || r.key == m.key) = some ex) :
    ∃ errs, (create m bytes s).1 = Except.error errs ∧
      ((∃ msg, ("name", msg) ∈ errs) ↔ ex.name = m.name) ∧
      ((∃ msg, ("key", msg) ∈ errs) ↔ ex.key = m.key) := by
  refine ⟨(if ex.name = m.name then
      [("name", "Feedback collection name \"" ++ m.name ++ "\" already taken")] else []) ++
      (if ex.key = m.key then
      [("key", "Feedback collection key \"" ++ m.key ++ "\" already taken")] else []),
      ?_, ?_, ?_⟩
  · simp [create, assertNameAndKeyUnique, findOne, hfind]
  · by_cases hn : ex.name = m.name <;> by_cases hk : ex.key = m.key <;> simp [hn, hk]
  · by_cases hn : ex.name = m.name <;> by_cases hk : ex.key = m.key <;> simp [hn, hk]

/-- C2 witness: reusing an existing name with a fresh key against a concrete
one-row store yields exactly a name message and no key message. -/
theorem create_collision_reports_exactly_matching_fields_witness :
    ∃ errs,
      (create ⟨"a", "k2", none, ScaleConfig.numeric 0 10, none⟩ (List.replicate 32 0)
         ⟨[⟨"a", "k", none, ScaleConfig.numeric 0 10, none, "fx_old"⟩], []⟩).1 =
        Except.error errs ∧
      ((∃ msg, ("name", msg) ∈ errs) ↔
        (⟨"a", "k", none, ScaleConfig.numeric 0 10, none, "fx_old"⟩ : FeedbackRow).name = "a") ∧
      ((∃ msg, ("key", msg) ∈ errs) ↔
        (⟨"a", "k", none, ScaleConfig.numeric 0 10, none, "fx_old"⟩ : FeedbackRow).key = "k2") :=
  create_collision_reports_exactly_matching_fields
    ⟨"a", "k2", none, ScaleConfig.numeric 0 10, none⟩ (List.replicate 32 0)
    ⟨[⟨"a", "k", none, ScaleConfig.numeric 0 10, none, "fx_old"⟩], []⟩
    ⟨"a", "k", none, ScaleConfig.numeric 0 10, none, "fx_old"⟩ (by decide)

/-- C3: `create` is atomic: it either fails leaving the rows unchanged after
exactly one read query and no write, or succeeds appending exactly one row —
the input fields plus the generated key — after exactly one read and one
write. -/
theorem create_atomic_one_read_at_most_one_write
    (m : CreateFeedbackModel) (bytes : List Nat) (s : RepoState) :
    (∃ errs, create m bytes s =
      (Except.error errs, { rows := s.rows, queries := s.queries ++ [Query.read] })) ∨
    create m bytes s =
      (Except.ok (rowOfModel m (generateApiKey bytes)),
       { rows := s.rows ++ [rowOfModel m (generateApiKey bytes)],
         queries := s.queries ++ [Query.read, Query.write] }) := by
  cases hfind : s.rows.find? (fun r => r.name == m.name || r.key == m.key) with
  | some ex =>
    left
    refine ⟨(if ex.name = m.name then
      [("name", "Feedback collection name \"" ++ m.name ++ "\" already taken")] else []) ++
      (if ex.key = m.key then
      [("key", "Feedback collection key \"" ++ m.key ++ "\" already taken")] else []), ?_⟩
    simp [create, assertNameAndKeyUnique, findOne, hfind]
  | none =>
    right
    simp [create, assertNameAndKeyUnique, findOne, hfind, save]

/-- C4: with a configured (truthy, i.e. nonempty) admin secret, the guard
authorizes a request exactly when the Authorization header matches the
case-insensitive `Bearer <token>` shape and the trimmed token equals the
secret character-for-character; and the constant-time comparison returns true
exactly on equal strings. -/
theorem canActivate_authorized_iff_bearer_token_matches_secret
    (s : String) (hs : s ≠ "") (h : Option String) :
    (canActivate (some s) h = GuardOutcome.authorized ↔
      ∃ hdr tok, h = some hdr ∧ matchBearerHeader hdr.data = some tok ∧
        String.mk (jsTrim tok) = s) ∧
    (∀ a b : String, constantTimeCompare a b = true ↔ a = b) := by
  refine ⟨?_, constantTimeCompare_eq_true_iff⟩
  cases h with
  | none => simp [canActivate, hs]
  | some hdr =>
    cases hm : matchBearerHeader hdr.data with
    | none =>
      simp only [canActivate, hs, if_false, hm]
      constructor
      · intro hcontra; exact absurd hcontra (by simp)
      · rintro ⟨hdr1, tok1, heq, hm1, -⟩
        rw [Option.some.injEq] at heq
        subst heq
        rw [hm] at hm1
        exact Option.noConfusion hm1
    | some tok =>
      have htok : ¬tok.isEmpty := by
        have := matchBearerHeader_ne_nil hm
        simpa [List.isEmpty_iff] using this
      by_cases hc : constantTimeCompare (String.mk (jsTrim tok)) s
      · simp only [canActivate, hs, if_false, hm, htok, hc]
        constructor
        · intro _
          exact ⟨hdr, tok, rfl, hm, constantTimeCompare_eq_true_iff _ _ |>.mp hc⟩
        · intro _; rfl
      · simp only [canActivate, hs, if_false, hm, htok, hc]
        constructor
        · intro hcontra; exact absurd hcontra (by simp)
        · rintro ⟨hdr1, tok1, heq, hm1, htrim⟩
          rw [Option.some.injEq] at heq
          subst heq
          rw [hm] at hm1
          rw [Option.some.injEq] at hm1
          subst hm1
          exact absurd (constantTimeCompare_eq_true_iff _ _ |>.mpr htrim) hc

/-- C4 witness: a lowercase scheme with extra whitespace around the correct
secret is authorized. -/
theorem canActivate_authorized_iff_bearer_token_matches_secret_witness :
    canActivate (some "s3cret") (some "bearer  s3cret ") = GuardOutcome.authorized :=
  ((canActivate_authorized_iff_bearer_token_matches_secret
      "s3cret" (by decide) (some "bearer  s3cret ")).1).mpr
    ⟨"bearer  s3cret ", ['s', '3', 'c', 'r', 'e', 't', ' '], rfl, by decide, by decide⟩

/-- C5: with no configured admin secret the guard fails closed on every
request with the distinct not-configured outcome, never authorizing. -/
theorem canActivate_unconfigured_secret_fails_closed (h : Option String) :
    canActivate none h = GuardOutcome.unauthorizedNotConfigured ∧
    canActivate none h ≠ GuardOutcome.authorized := ⟨rfl, by simp [canActivate]⟩

/-- C10: whenever the guard authorizes, the configured secret is a nonempty
string and the trimmed captured token equals it (so an empty-string secret or
an all-whitespace token can never be authorized). -/
theorem canActivate_authorized_requires_nonempty_secret
    (sec h : Option String)
    (hauth : canActivate sec h = GuardOutcome.authorized) :
    ∃ s hdr tok, sec = some s ∧ s ≠ "" ∧ h = some hdr ∧
      matchBearerHeader hdr.data = some tok ∧ String.mk (jsTrim tok) = s := by
  cases sec with
  | none => exact absurd hauth (by simp [canActivate])
  | some s =>
    by_cases hs : s = ""
    · exact absurd hauth (by simp [canActivate, hs])
    · cases h with
      | none => exact absurd hauth (by simp [canActivate, hs])
      | some hdr =>
        cases hm : matchBearerHeader hdr.data with
        | none => rw [canActivate] at hauth; simp [hs, hm] at hauth
        | some tok =>
          have htok : ¬tok.isEmpty := by
            have := matchBearerHeader_ne_nil hm
            simpa [List.isEmpty_iff] using this
          by_cases hc : constantTimeCompare (String.mk (jsTrim tok)) s
          · exact ⟨s, hdr, tok, rfl, hs, rfl, hm,
              constantTimeCompare_eq_true_iff _ _ |>.mp hc⟩
          · rw [canActivate] at hauth
            simp [hs, hm, htok, hc] at hauth

/-- C10 witness: a concrete authorized request exhibits the nonempty secret
and matching trimmed token. -/
theorem canActivate_authorized_requires_nonempty_secret_witness :
    ∃ s hdr tok, (some "abc" : Option String) = some s ∧ s ≠ "" ∧
      (some "Bearer abc" : Option String) = some hdr ∧
      matchBearerHeader hdr.data = some tok ∧ String.mk (jsTrim tok) = s :=
  canActivate_authorized_requires_nonempty_secret
    (some "abc") (some "Bearer abc") (by decide)

/-- C6: a ValidationException is converted to a 400 response whose body is
`issues`/`error`/`statusCode`, with every bare string in the field map
wrapped into a one-element array and every array passed through; in
particular a map with `name` bound to the bare string x yields issues with
`name` bound to the one-element array of x. -/
theorem intercept_validation_error_wraps_issues (errors : List (String × ErrMsg)) :
    intercept (ThrownError.validationExc errors) =
      { status := 400,
        response := JsValue.obj
          [("issues", issuesToJs (errors.map (fun p =>
              (p.1, match p.2 with
                    | ErrMsg.one s => [s]
                    | ErrMsg.many ss => ss)))),
           ("error", JsValue.str "Bad Request"),
           ("statusCode", JsValue.num 400)] } ∧
    intercept (ThrownError.validationExc [("name", ErrMsg.one "x")]) =
      { status := 400,
        response := JsValue.obj
          [("issues", JsValue.obj [("name", JsValue.arr [JsValue.str "x"])]),
           ("error", JsValue.str "Bad Request"),
           ("statusCode", JsValue.num 400)] } := ⟨rfl, rfl⟩

/-- C7: every unrecognized error — any thrown value that is neither a
ValidationException nor an HttpException, including primitives, null and
undefined — produces exactly the fixed generic 500 body, carrying nothing
from the original value. -/
theorem intercept_unrecognized_error_fixed_500 (v : JsValue) :
    intercept (ThrownError.other v) =
      { status := 500,
        response := JsValue.obj
          [("error", JsValue.str "Internal Server Error"),
           ("statusCode", JsValue.num 500)] } := rfl

/-- C8: an already-normalized response body passes through the normalizer
unchanged, and normalizing twice always equals normalizing once. -/
theorem normalize_already_normalized_passthrough_idempotent (sc : Nat) (r : JsValue) :
    (isNormalizedShape r = true → normalizeHttpExceptionResponse sc r = r) ∧
    normalizeHttpExceptionResponse sc (normalizeHttpExceptionResponse sc r) =
      normalizeHttpExceptionResponse sc r := by
  constructor
  · intro hr
    simp [normalizeHttpExceptionResponse, hr]
  · by_cases hr : isNormalizedShape r
    · simp [normalizeHttpExceptionResponse, hr]
    · simp only [normalizeHttpExceptionResponse, hr, Bool.false_eq_true, if_false]
      simp [isNormalizedShape, lookupField, List.find?]

/-- C8 witness: a concrete normalized body is a fixed point of the
normalizer. -/
theorem normalize_already_normalized_passthrough_idempotent_witness :
    isNormalizedShape (JsValue.obj
      [("error", JsValue.str "Bad Request"), ("statusCode", JsValue.num 400)]) = true ∧
    normalizeHttpExceptionResponse 400
        (JsValue.obj [("error", JsValue.str "Bad Request"), ("statusCode", JsValue.num 400)]) =
      JsValue.obj [("error", JsValue.str "Bad Request"), ("statusCode", JsValue.num 400)] :=
  ⟨rfl, (normalize_already_normalized_passthrough_idempotent 400 (JsValue.obj
    [("error", JsValue.str "Bad Request"), ("statusCode", JsValue.num 400)])).1 rfl⟩

/-- C9 counterexample: the response object with only a string `error`
property (no `message`, no `statusCode`) is not in normalized shape and is
not a bare string, so the claim dictates the canonical-name fallback
BAD_REQUEST; the code instead reuses the `error` string itself. -/
theorem normalize_fallback_canonical_name_counterexample :
    lookupField [("error", JsValue.str "custom")] "message" = none ∧
    isNormalizedShape (JsValue.obj [("error", JsValue.str "custom")]) = false ∧
    normalizeHttpExceptionResponse 400 (JsValue.obj [("error", JsValue.str "custom")]) =
      JsValue.obj [("error", JsValue.str "custom"), ("statusCode", JsValue.num 400)] ∧
    "custom" ≠ httpStatusText 400 := ⟨rfl, rfl, rfl, by decide⟩

/-- C9 amended: for a not-already-normalized HTTP error the status is
preserved and the error string is: a string message as-is; an array message
joined with comma-space; a bare-string response as-is; with no message field,
a string `error` property as-is; and otherwise the status code's canonical
name. -/
theorem normalize_preserves_status_and_extracts_message
    (sc : Nat) (r : JsValue) (hr : isNormalizedShape r = false) :
    ∃ msg,
      (intercept (ThrownError.httpExc sc r)).status = sc ∧
      (intercept (ThrownError.httpExc sc r)).response =
        JsValue.obj [("error", JsValue.str msg), ("statusCode", JsValue.num sc)] ∧
      (∀ s, r = JsValue.str s → msg = s) ∧
      (∀ fields s, r = JsValue.obj fields →
        lookupField fields "message" = some (JsValue.str s) → msg = s) ∧
      (∀ fields ss, r = JsValue.obj fields →
        lookupField fields "message" = some (JsValue.arr (ss.map JsValue.str)) →
        msg = String.intercalate ", " ss) ∧
      (∀ fields e, r = JsValue.obj fields → lookupField fields "message" = none →
        lookupField fields "error" = some (JsValue.str e) → msg = e) ∧
      (∀ fields, r = JsValue.obj fields → lookupField fields "message" = none →
        (∀ e, lookupField fields "error" ≠ some (JsValue.str e)) →
        msg = httpStatusText sc) := by
  refine ⟨extractErrorMessage (httpStatusText sc) r, rfl, ?_, ?_, ?_, ?_, ?_, ?_⟩
  · simp [intercept, normalizeHttpExceptionResponse, hr]
  · rintro s rfl; rfl
  · rintro fields s rfl hm
    simp [extractErrorMessage, hm]
  · rintro fields ss rfl hm
    simp only [extractErrorMessage, hm]
    exact jsJoin_str_map ", " ss
  · rintro fields e rfl hm he
    simp [extractErrorMessage, hm, he]
  · rintro fields rfl hm he
    simp only [extractErrorMessage, hm]

/-- C9 witness: a concrete not-normalized 404 whose response carries a string
message. -/
theorem normalize_preserves_status_and_extracts_message_witness :
    isNormalizedShape (JsValue.obj [("message", JsValue.str "nope")]) = false ∧
    (∃ msg,
      (intercept (ThrownError.httpExc 404
        (JsValue.obj [("message", JsValue.str "nope")]))).status = 404 ∧
      (intercept (ThrownError.httpExc 404
        (JsValue.obj [("message", JsValue.str "nope")]))).response =
        JsValue.obj [("error", JsValue.str msg), ("statusCode", JsValue.num 404)] ∧
      (∀ s, JsValue.obj [("message", JsValue.str "nope")] = JsValue.str s → msg = s) ∧
      (∀ fields s, JsValue.obj [("message", JsValue.str "nope")] = JsValue.obj fields →
        lookupField fields "message" = some (JsValue.str s) → msg = s) ∧
      (∀ fields ss, JsValue.obj [("message", JsValue.str "nope")] = JsValue.obj fields →
        lookupField fields "message" = some (JsValue.arr (ss.map JsValue.str)) →
        msg = String.intercalate ", " ss) ∧
      (∀ fields e, JsValue.obj [("message", JsValue.str "nope")] = JsValue.obj fields →
        lookupField fields "message" = none →
        lookupField fields "error" = some (JsValue.str e) → msg = e) ∧
      (∀ fields, JsValue.obj [("message", JsValue.str "nope")] = JsValue.obj fields →
        lookupField fields "message" = none →
        (∀ e, lookupField fields "error" ≠ some (JsValue.str e)) →
        msg = httpStatusText 404)) :=
  ⟨rfl, normalize_preserves_status_and_extracts_message 404
    (JsValue.obj [("message", JsValue.str "nope")]) rfl⟩

end Feedbackx
